import Mathlib

/-
Verification of `currency_exch_privatbank.py`: a shallow embedding of the
exchange-rate fetcher (`ExchangeRateFetcher`) and the WebSocket command
server (`WebSocketChat`), with theorems about the behaviour the
specification describes.

Modelling conventions:
* Calendar dates are integers (day numbers); `datetime.now() - timedelta(days=i)`
  becomes `now - i`.  The `DD.MM.YYYY` rendering only feeds the request URL and
  is irrelevant to every claim, so dates stay abstract integers.
* The remote HTTP interaction for one date is an oracle `net : Int → HttpOutcome`.
  The outcome classifies what the aiohttp calls in `fetch_exchange_rate` do:
  `ok r` (2xx status, JSON body parsing to the expected record shape),
  `transportError` (`session.get` raises `aiohttp.ClientError`),
  `non2xx` (`response.raise_for_status()` raises `aiohttp.ClientResponseError`,
  a subclass of `ClientError`), `contentTypeMismatch` (`response.json()` raises
  `aiohttp.ContentTypeError`, a subclass of `ClientError`), and
  `invalidJson` (`response.json()` raises `json.JSONDecodeError`, which is a
  subclass of `ValueError` and NOT of `aiohttp.ClientError`, so the
  `except aiohttp.ClientError` clause does not catch it).
* Python exceptions that matter to the embedded code are `ValueError`
  (raised by `int()` on a non-numeric string, by tuple unpacking on too few
  values, and — via its subclass `json.JSONDecodeError` — by `response.json()`)
  and `websockets.exceptions.ConnectionClosed`.
* Python `dict` preserves insertion order; assignment to an existing key keeps
  the key at its old position.  `dictInsert` reproduces this on association
  lists, and dicts are association lists throughout.
* Rate values (`saleRate`) are opaque in the source (formatted into the reply,
  never computed with), so they are plain strings here.
* `int(s)` is modelled for optional sign plus decimal digits; Python's
  digit-grouping underscores and unicode digits are not modelled (the tokens
  the claims exercise contain neither).
-/

set_option autoImplicit false

namespace PrivatBank

/-- One element of the `exchangeRate` array of the API response:
the fields `fetch_exchange_rate`'s callers read (`currency`, `saleRate`). -/
structure RateEntry where
  currency : String
  saleRate : String
deriving DecidableEq, Repr

/-- One parsed API response body, with the fields `extract_rates` reads:
`date` and `exchangeRate`. -/
structure RawRecord where
  date : String
  exchangeRate : List RateEntry
deriving DecidableEq, Repr

/-- What the remote HTTP exchange for one date does, as seen by the three
fallible operations in `fetch_exchange_rate`
(`session.get`, `raise_for_status`, `response.json`). -/
inductive HttpOutcome where
  | ok (record : RawRecord)
  | transportError
  | non2xx
  | contentTypeMismatch
  | invalidJson
deriving DecidableEq, Repr

/-- The Python exceptions the embedded code can raise or catch.
`json.JSONDecodeError` is a subclass of `ValueError`, so it is `valueError`
here; nothing in the source distinguishes them. -/
inductive PyExc where
  | valueError
  | connectionClosed
deriving DecidableEq, Repr

/-- The diagnostic line `logging.error(f"Request failed: ...")` emits;
the interpolated exception text is irrelevant to every claim. -/
def requestFailedDiag : String := "Request failed"

/-- Embedding of `ExchangeRateFetcher.fetch_exchange_rate` (lines 20-28):
returns the would-be return value (or the escaping exception) together with
the diagnostic log lines emitted.  `aiohttp.ClientError` outcomes are caught,
logged and turned into `None`; an `invalidJson` body raises
`json.JSONDecodeError`, which the `except aiohttp.ClientError` clause does not
catch, so it escapes. -/
def fetch_exchange_rate (net : Int → HttpOutcome) (date : Int) :
    Except PyExc (Option RawRecord) × List String :=
  match net date with
  | .ok r => (.ok (some r), [])
  | .transportError => (.ok none, [requestFailedDiag])
  | .non2xx => (.ok none, [requestFailedDiag])
  | .contentTypeMismatch => (.ok none, [requestFailedDiag])
  | .invalidJson => (.error .valueError, [])

/-- Python `range(days)` for a possibly negative `int` argument:
empty when `days ≤ 0`. -/
def pyRange (days : Int) : List Nat := List.range days.toNat

/-- The list of dates `fetch_last_days` requests:
`datetime.now() - timedelta(days=i)` for `i in range(days)`. -/
def requestDates (now : Int) (days : Int) : List Int :=
  (pyRange days).map (fun i => now - Int.ofNat i)

/-- `asyncio.gather(*tasks)` over tasks that each either settle to a value or
raise: if some task raises, the exception propagates out of `gather`
(modelled deterministically as the leftmost one); otherwise all results are
collected in task order. -/
def gatherResults {α : Type} : List (Except PyExc α) → Except PyExc (List α)
  | [] => .ok []
  | x :: xs =>
    match x with
    | .error e => .error e
    | .ok v =>
      match gatherResults xs with
      | .error e => .error e
      | .ok vs => .ok (v :: vs)

/-- The observable outcome of one `fetch_last_days` call: the returned list
(or escaping exception), the dates dispatched to `fetch_exchange_rate`
in dispatch order, and the diagnostic log lines of the whole batch. -/
structure FetchBatch where
  result : Except PyExc (List (Option RawRecord))
  dates : List Int
  diags : List String

/-- Embedding of `ExchangeRateFetcher.fetch_last_days` (lines 30-39) with an
explicit `days` argument (the `days=None → self.days` default is never used by
the WebSocket layer): build one fetch task per date counting backward from
now, gather them all, return the raw result list. -/
def fetch_last_days (net : Int → HttpOutcome) (now : Int) (days : Int) : FetchBatch :=
  let dates := requestDates now days
  let fetches := dates.map (fun d => fetch_exchange_rate net d)
  { result := gatherResults (fetches.map Prod.fst)
    dates := dates
    diags := (fetches.map Prod.snd).flatten }

/-- Python `d[k] = v` on an insertion-ordered dict represented as an
association list: overwrite in place when the key is present, append
otherwise. -/
def dictInsert {α β : Type} [DecidableEq α] (d : List (α × β)) (k : α) (v : β) :
    List (α × β) :=
  if ∃ p ∈ d, p.1 = k then d.map (fun p => if p.1 = k then (k, v) else p)
  else d ++ [(k, v)]

/-- The dict comprehension on lines 46-47, built left to right:
`{rate["currency"]: rate["saleRate"] for rate in entry["exchangeRate"]
if rate["currency"] in self.currencies}`.  `acc` is the dict built so far. -/
def projectAux (currencies : List String) (acc : List (String × String)) :
    List RateEntry → List (String × String)
  | [] => acc
  | e :: rest =>
      projectAux currencies
        (if e.currency ∈ currencies then dictInsert acc e.currency e.saleRate else acc) rest

/-- The inner dict of `extract_rates` for one record. -/
def projectEntry (currencies : List String) (entries : List RateEntry) :
    List (String × String) :=
  projectAux currencies [] entries

/-- The aggregated mapping: API date string → (currency → saleRate). -/
abbrev AggregatedRates := List (String × List (String × String))

/-- The `for entry in data` loop of `extract_rates` (lines 43-47) with the
dict built so far as accumulator; `None` entries are skipped by `if entry`. -/
def extractAux (currencies : List String) (acc : AggregatedRates) :
    List (Option RawRecord) → AggregatedRates
  | [] => acc
  | none :: rest => extractAux currencies acc rest
  | some r :: rest =>
      extractAux currencies
        (dictInsert acc r.date (projectEntry currencies r.exchangeRate)) rest

/-- Embedding of `ExchangeRateFetcher.extract_rates` (lines 41-48). -/
def extract_rates (currencies : List String) (data : List (Option RawRecord)) :
    AggregatedRates :=
  extractAux currencies [] data

/-- Accumulator pass for `pySplit`: `acc` holds the characters of the token
being read, in reverse. -/
def splitWsAux : List Char → List Char → List String
  | [], acc => if acc = [] then [] else [String.mk acc.reverse]
  | c :: cs, acc =>
    if c.isWhitespace then
      (if acc = [] then [] else [String.mk acc.reverse]) ++ splitWsAux cs []
    else splitWsAux cs (c :: acc)

/-- Python `str.split()` with no argument: split on whitespace runs,
dropping empty tokens (an empty or all-whitespace string yields `[]`). -/
def pySplit (s : String) : List String :=
  splitWsAux s.toList []

/-- Value of a nonempty all-digit character list, most significant first. -/
def digitsToNat (cs : List Char) : Nat :=
  cs.foldl (fun a c => a * 10 + (c.toNat - 48)) 0

/-- Decimal-digit parse of a character list; `none` unless nonempty and
all digits. -/
def decDigits (cs : List Char) : Option Nat :=
  if cs ≠ [] ∧ cs.all Char.isDigit then some (digitsToNat cs) else none

/-- Python `int(s)` on a whitespace-free token: optional sign followed by
decimal digits, `ValueError` (here `none`) otherwise.  Digit-grouping
underscores and non-ASCII digits are not modelled. -/
def pyInt (s : String) : Option Int :=
  match s.toList with
  | '-' :: rest => (decDigits rest).map (fun n => -(n : Int))
  | '+' :: rest => (decDigits rest).map (fun n => (n : Int))
  | cs => (decDigits cs).map (fun n => (n : Int))

/-- The environment one command executes against: the network oracle, the
current day number (for `datetime.now() - timedelta(days=i)`), the configured
currency list (`self.fetcher.currencies`), and the rendering of
`datetime.now()` used in the audit line. -/
structure Env where
  net : Int → HttpOutcome
  now : Int
  currencies : List String
  timestamp : String

/-- One line appended to `exchange.log`:
`f"Command 'exchange' executed with params {params} at {datetime.now()}"`,
kept structurally (command name, raw params, timestamp). -/
structure AuditEntry where
  command : String
  params : List String
  time : String
deriving DecidableEq, Repr

/-- The externally observable effects of handling input: messages sent over
the websocket in order, the `days` argument of each `fetch_last_days`
invocation, the dates dispatched to `fetch_exchange_rate`, diagnostic log
lines, and audit log lines. -/
structure CmdEffects where
  sent : List String
  fetchCalls : List Int
  netDates : List Int
  diags : List String
  audit : List AuditEntry
deriving DecidableEq, Repr

/-- No effects yet. -/
def emptyEff : CmdEffects :=
  { sent := [], fetchCalls := [], netDates := [], diags := [], audit := [] }

/-- Effects of two successive pieces of execution. -/
def appendEff (a b : CmdEffects) : CmdEffects :=
  { sent := a.sent ++ b.sent
    fetchCalls := a.fetchCalls ++ b.fetchCalls
    netDates := a.netDates ++ b.netDates
    diags := a.diags ++ b.diags
    audit := a.audit ++ b.audit }

/-- The response lines built on lines 75-79: for each date of the mapping, in
order, `Rates on {date}:` then one `{currency}: {value}` line per kept
currency. -/
def responseLines (rates : AggregatedRates) : List String :=
  (rates.map (fun p =>
    ("Rates on " ++ p.1 ++ ":") :: p.2.map (fun cv => cv.1 ++ ": " ++ cv.2))).flatten

/-- Body of `exchange_command` from line 68 on, once `days` is known
(lines 68-86): reject `days > 10` with the error text; otherwise fetch,
aggregate, send the newline-joined block as one message, then append one
audit line.  A `json.JSONDecodeError` escaping `fetch_last_days` aborts the
command after the fetch effects: nothing is sent and nothing is logged to
`exchange.log`. -/
def runExchange (env : Env) (params : List String) (days : Int) :
    CmdEffects × Option PyExc :=
  if days > 10 then
    ({ emptyEff with sent := ["Error: Maximum number of days is 10"] }, none)
  else
    let batch := fetch_last_days env.net env.now days
    match batch.result with
    | .error e =>
        ({ emptyEff with
            fetchCalls := [days]
            netDates := batch.dates
            diags := batch.diags }, some e)
    | .ok data =>
        let rates := extract_rates env.currencies data
        ({ sent := [String.intercalate "\n" (responseLines rates)]
           fetchCalls := [days]
           netDates := batch.dates
           diags := batch.diags
           audit := [⟨"exchange", params, env.timestamp⟩] }, none)

/-- Embedding of `WebSocketChat.exchange_command` (lines 66-86):
`days = int(params[0]) if params else 1` — `int` on a non-numeric first
parameter raises `ValueError` — then the body. -/
def exchange_command (env : Env) (params : List String) :
    CmdEffects × Option PyExc :=
  match params with
  | [] => runExchange env params 1
  | p :: _ =>
    match pyInt p with
    | none => (emptyEff, some .valueError)
    | some days => runExchange env params days

/-- The day count line 67 computes for a parameter list, when `int` does not
raise: 1 for no parameters, `int(params[0])` otherwise. -/
def parsedDays (params : List String) : Option Int :=
  match params with
  | [] => some 1
  | p :: _ => pyInt p

/-- Handling of one inbound line (lines 92-94):
`command, *params = message.split()` raises `ValueError` on an empty token
list; the command `exchange` is dispatched, anything else is silently
ignored. -/
def handleLine (env : Env) (line : String) : CmdEffects × Option PyExc :=
  match pySplit line with
  | [] => (emptyEff, some .valueError)
  | command :: params =>
    if command = "exchange" then exchange_command env params
    else (emptyEff, none)

/-- The `async for message in websocket` loop (lines 91-94): lines are
handled strictly in sequence; the first escaping exception stops the loop
and propagates, leaving later messages unread. -/
def handlerLoop (env : Env) : List String → CmdEffects × Option PyExc
  | [] => (emptyEff, none)
  | m :: ms =>
    match handleLine env m with
    | (e1, some exc) => (e1, some exc)
    | (e1, none) =>
      let r := handlerLoop env ms
      (appendEff e1 r.1, r.2)

/-- How the inbound message stream ends when every received line was handled
without an escaping exception: the client closes cleanly (the `async for`
just ends) or the transport fails (the iterator raises
`websockets.exceptions.ConnectionClosed`). -/
inductive StreamEnd where
  | closed
  | connError
deriving DecidableEq, Repr

/-- Outcome of one `handler` invocation: the clients registry after it
returns, the accumulated effects, and the exception escaping `handler`
(if any). -/
structure HandlerResult where
  clients : Finset Nat
  eff : CmdEffects
  exc : Option PyExc

/-- Embedding of `WebSocketChat.handler` (lines 88-98) for one connection,
with websockets as opaque numeric handles: add the client to `self.clients`;
handle inbound lines until the stream ends (`fin`) or a line raises;
`except websockets.exceptions.ConnectionClosed` catches closure exceptions
only; `finally` removes the client on every path; any other exception
escapes `handler` after the removal. -/
def handler (env : Env) (clients : Finset Nat) (ws : Nat) (msgs : List String)
    (fin : StreamEnd) : HandlerResult :=
  let clients1 := insert ws clients
  let r := handlerLoop env msgs
  let exc : Option PyExc :=
    match r.2 with
    | some PyExc.connectionClosed => none
    | some e => some e
    | none =>
      match fin with
      | .closed => none
      | .connError => none
  { clients := clients1.erase ws, eff := r.1, exc := exc }

/-! Classifiers over `HttpOutcome` used to state the claims. -/

/-- What a settled (non-raising) fetch returns for a given outcome:
the parsed record on success, `None` on every caught failure. -/
def settleResult : HttpOutcome → Option RawRecord
  | .ok r => some r
  | _ => none

/-- The result list `fetch_last_days` returns when every fetch settles. -/
def settledData (net : Int → HttpOutcome) (now days : Int) : List (Option RawRecord) :=
  (requestDates now days).map (fun d => settleResult (net d))

/-- Outcomes on which a per-date fetch fails and is caught
(transport error, non-2xx status, content-type mismatch). -/
abbrev fetchFails (o : HttpOutcome) : Prop :=
  o = .transportError ∨ o = .non2xx ∨ o = .contentTypeMismatch

/-! Concrete sample data for witnesses and counterexamples. -/

/-- The API record of the scenario in the specification, section 8. -/
def sampleRecord : RawRecord :=
  ⟨"01.06.2024", [⟨"USD", "39.5"⟩, ⟨"EUR", "42.1"⟩, ⟨"GBP", "50.0"⟩]⟩

/-- A second sample record with a different API date string. -/
def sampleRecord2 : RawRecord :=
  ⟨"31.05.2024", [⟨"USD", "39.4"⟩]⟩

/-- A network on which every fetch succeeds with `sampleRecord`. -/
def netOk : Int → HttpOutcome := fun _ => .ok sampleRecord

/-- A network on which day 99 fails transport, day 98 succeeds with
`sampleRecord2`, and every other day succeeds with `sampleRecord`. -/
def netMixed : Int → HttpOutcome := fun d =>
  if d = 99 then .transportError
  else if d = 98 then .ok sampleRecord2
  else .ok sampleRecord

/-- A network on which every response body is invalid JSON. -/
def netBadJson : Int → HttpOutcome := fun _ => .invalidJson

/-- A sample environment over `netOk`. -/
def envOk : Env :=
  { net := netOk
    now := 100
    currencies := ["USD", "EUR"]
    timestamp := "2024-06-01 12:00:00" }

/-- A sample environment over `netMixed`. -/
def envMixed : Env :=
  { net := netMixed
    now := 100
    currencies := ["USD", "EUR"]
    timestamp := "2024-06-01 12:00:00" }

/-- A sample environment over `netBadJson`. -/
def envBadJson : Env :=
  { net := netBadJson
    now := 100
    currencies := ["USD", "EUR"]
    timestamp := "2024-06-01 12:00:00" }

/-! Lemmas about `dictInsert` (Python dict assignment). -/

theorem mem_dictInsert {α β : Type} [DecidableEq α] {d : List (α × β)} {k : α}
    {v : β} {q : α × β} (hq : q ∈ dictInsert d k v) : q = (k, v) ∨ q ∈ d := by
  unfold dictInsert at hq
  by_cases h : ∃ p ∈ d, p.1 = k
  · rw [if_pos h] at hq
    rcases List.mem_map.mp hq with ⟨p, hp, hpq⟩
    by_cases hk : p.1 = k
    · rw [if_pos hk] at hpq
      exact Or.inl hpq.symm
    · rw [if_neg hk] at hpq
      exact Or.inr (hpq ▸ hp)
  · rw [if_neg h] at hq
    rcases List.mem_append.mp hq with h1 | h1
    · exact Or.inr h1
    · exact Or.inl (List.mem_singleton.mp h1)

theorem self_mem_dictInsert {α β : Type} [DecidableEq α] (d : List (α × β))
    (k : α) (v : β) : ∃ m, (k, m) ∈ dictInsert d k v := by
  refine ⟨v, ?_⟩
  unfold dictInsert
  by_cases h : ∃ p ∈ d, p.1 = k
  · rw [if_pos h]
    rcases h with ⟨p, hp, hpk⟩
    exact List.mem_map.mpr ⟨p, hp, by rw [if_pos hpk]⟩
  · rw [if_neg h]
    exact List.mem_append.mpr (Or.inr (List.mem_singleton.mpr rfl))

theorem mem_dictInsert_of_ne {α β : Type} [DecidableEq α] {d : List (α × β)}
    {k' : α} {m : β} (k : α) (v : β) (hne : k' ≠ k) (hm : (k', m) ∈ d) :
    (k', m) ∈ dictInsert d k v := by
  unfold dictInsert
  by_cases h : ∃ p ∈ d, p.1 = k
  · rw [if_pos h]
    exact List.mem_map.mpr ⟨(k', m), hm, by rw [if_neg hne]⟩
  · rw [if_neg h]
    exact List.mem_append.mpr (Or.inl hm)

theorem exists_mem_dictInsert {α β : Type} [DecidableEq α] (d : List (α × β))
    (k k' : α) (v : β) :
    (∃ m, (k', m) ∈ dictInsert d k v) ↔ k' = k ∨ ∃ m, (k', m) ∈ d := by
  constructor
  · rintro ⟨m, hm⟩
    rcases mem_dictInsert hm with h | h
    · exact Or.inl (congrArg Prod.fst h)
    · exact Or.inr ⟨m, h⟩
  · rintro (rfl | ⟨m, hm⟩)
    · exact self_mem_dictInsert d k' v
    · by_cases hk : k' = k
      · exact hk ▸ self_mem_dictInsert d k v
      · exact ⟨m, mem_dictInsert_of_ne k v hk hm⟩

theorem length_dictInsert_le {α β : Type} [DecidableEq α] (d : List (α × β))
    (k : α) (v : β) : (dictInsert d k v).length ≤ d.length + 1 := by
  unfold dictInsert
  by_cases h : ∃ p ∈ d, p.1 = k
  · rw [if_pos h, List.length_map]
    omega
  · rw [if_neg h, List.length_append]
    simp

/-! Lemmas about the aggregation (`projectAux`, `extractAux`). -/

theorem projectAux_mem (cs : List String) :
    ∀ (es : List RateEntry) (acc : List (String × String)) (q : String × String),
      q ∈ projectAux cs acc es → q ∈ acc ∨ q.1 ∈ cs := by
  intro es
  induction es with
  | nil =>
    intro acc q hq
    exact Or.inl hq
  | cons e rest ih =>
    intro acc q hq
    unfold projectAux at hq
    by_cases hc : e.currency ∈ cs
    · rw [if_pos hc] at hq
      rcases ih _ q hq with h | h
      · rcases mem_dictInsert h with h1 | h1
        · exact Or.inr (by rw [h1]; exact hc)
        · exact Or.inl h1
      · exact Or.inr h
    · rw [if_neg hc] at hq
      exact ih _ q hq

theorem projectEntry_mem (cs : List String) (es : List RateEntry)
    (q : String × String) (hq : q ∈ projectEntry cs es) : q.1 ∈ cs := by
  rcases projectAux_mem cs es [] q hq with h | h
  · exact absurd h (List.not_mem_nil q)
  · exact h

theorem extractAux_values (cs : List String) :
    ∀ (data : List (Option RawRecord)) (acc : AggregatedRates),
      (∀ p ∈ acc, ∀ q ∈ p.2, q.1 ∈ cs) →
      ∀ p ∈ extractAux cs acc data, ∀ q ∈ p.2, q.1 ∈ cs := by
  intro data
  induction data with
  | nil =>
    intro acc hacc
    exact hacc
  | cons o rest ih =>
    cases o with
    | none =>
      intro acc hacc
      exact ih acc hacc
    | some r =>
      intro acc hacc
      refine ih _ ?_
      intro p hp q hq
      rcases mem_dictInsert hp with h | h
      · rw [h] at hq
        exact projectEntry_mem cs r.exchangeRate q hq
      · exact hacc p h q hq

theorem extractAux_keys (cs : List String) :
    ∀ (data : List (Option RawRecord)) (acc : AggregatedRates) (k : String),
      (∃ m, (k, m) ∈ extractAux cs acc data) ↔
        (∃ m, (k, m) ∈ acc) ∨ ∃ r : RawRecord, some r ∈ data ∧ r.date = k := by
  intro data
  induction data with
  | nil =>
    intro acc k
    simp [extractAux]
  | cons o rest ih =>
    cases o with
    | none =>
      intro acc k
      show (∃ m, (k, m) ∈ extractAux cs acc rest) ↔ _
      rw [ih]
      simp
    | some r0 =>
      intro acc k
      show (∃ m, (k, m) ∈ extractAux cs (dictInsert acc r0.date _) rest) ↔ _
      rw [ih, exists_mem_dictInsert]
      simp only [List.mem_cons, Option.some.injEq]
      constructor
      · rintro ((hk | hacc) | ⟨r, hr, hrk⟩)
        · exact Or.inr ⟨r0, Or.inl rfl, hk.symm⟩
        · exact Or.inl hacc
        · exact Or.inr ⟨r, Or.inr hr, hrk⟩
      · rintro (hacc | ⟨r, hr | hr, hrk⟩)
        · exact Or.inl (Or.inr hacc)
        · exact Or.inl (Or.inl (by rw [← hr, hrk]))
        · exact Or.inr ⟨r, hr, hrk⟩

theorem extract_rates_keys (cs : List String) (data : List (Option RawRecord))
    (k : String) :
    (∃ m, (k, m) ∈ extract_rates cs data) ↔
      ∃ r : RawRecord, some r ∈ data ∧ r.date = k := by
  rw [extract_rates, extractAux_keys]
  simp

theorem length_extractAux_le (cs : List String) :
    ∀ (data : List (Option RawRecord)) (acc : AggregatedRates),
      (extractAux cs acc data).length ≤ acc.length + data.length := by
  intro data
  induction data with
  | nil =>
    intro acc
    simp [extractAux]
  | cons o rest ih =>
    cases o with
    | none =>
      intro acc
      have := ih acc
      simpa [extractAux] using Nat.le_succ_of_le this
    | some r =>
      intro acc
      have h1 := ih (dictInsert acc r.date (projectEntry cs r.exchangeRate))
      have h2 := length_dictInsert_le acc r.date (projectEntry cs r.exchangeRate)
      show (extractAux cs (dictInsert acc r.date (projectEntry cs r.exchangeRate))
        rest).length ≤ acc.length + (some r :: rest).length
      simp only [List.length_cons]
      omega

/-! Lemmas about gathering the concurrent fetches. -/

theorem gatherResults_ok_map {α β : Type} (f : β → Except PyExc α) (g : β → α)
    (l : List β) (hf : ∀ b ∈ l, f b = .ok (g b)) :
    gatherResults (l.map f) = .ok (l.map g) := by
  induction l with
  | nil => rfl
  | cons b rest ih =>
    have hb := hf b (List.mem_cons_self b rest)
    have hrest := ih (fun x hx => hf x (List.mem_cons_of_mem b hx))
    simp only [List.map_cons, gatherResults, hb, hrest]

theorem gatherResults_ok_length {α : Type} :
    ∀ (l : List (Except PyExc α)) (vs : List α),
      gatherResults l = .ok vs → vs.length = l.length := by
  intro l
  induction l with
  | nil =>
    intro vs h
    cases h
    rfl
  | cons x rest ih =>
    intro vs h
    cases x with
    | error e => exact absurd h (by simp [gatherResults])
    | ok v =>
      revert h
      unfold gatherResults
      cases hrest : gatherResults rest with
      | error e => intro h; exact absurd h (by simp)
      | ok vs' =>
        intro h
        cases h
        simp [ih vs' hrest]

theorem fetch_settled (net : Int → HttpOutcome) (d : Int)
    (h : net d ≠ .invalidJson) :
    (fetch_exchange_rate net d).1 = .ok (settleResult (net d)) := by
  unfold fetch_exchange_rate settleResult
  cases hd : net d
  · rfl
  · rfl
  · rfl
  · rfl
  · exact absurd hd h

theorem fetch_last_days_dates (net : Int → HttpOutcome) (now days : Int) :
    (fetch_last_days net now days).dates = requestDates now days := rfl

theorem requestDates_length (now days : Int) :
    (requestDates now days).length = days.toNat := by
  rw [requestDates, List.length_map, pyRange, List.length_range]

theorem fetch_last_days_result_settled (net : Int → HttpOutcome) (now days : Int)
    (h : ∀ d ∈ requestDates now days, net d ≠ .invalidJson) :
    (fetch_last_days net now days).result = .ok (settledData net now days) := by
  show gatherResults (((requestDates now days).map
      (fun d => fetch_exchange_rate net d)).map Prod.fst) = _
  rw [List.map_map]
  exact gatherResults_ok_map _ _ _ (fun d hd => fetch_settled net d (h d hd))

/-- Helper: `extract_rates` on an all-absent input list is empty. -/
theorem extract_rates_replicate_none (cs : List String) :
    ∀ n : Nat, extract_rates cs (List.replicate n none) = [] := by
  intro n
  induction n with
  | zero => rfl
  | succ m ih =>
    rw [List.replicate_succ]
    exact ih

/-- C3: for every input sequence of optional records and every requested
currency set, `extract_rates` skips absent entries and emits no currency code
outside the requested set; an empty or all-absent input yields the empty
mapping. -/
theorem extract_rates_requested_only (cs : List String)
    (data : List (Option RawRecord)) (n : Nat) :
    (∀ p ∈ extract_rates cs data, ∀ q ∈ p.2, q.1 ∈ cs) ∧
    extract_rates cs [] = [] ∧
    extract_rates cs (List.replicate n none) = [] ∧
    ∀ rest : List (Option RawRecord),
      extract_rates cs (none :: rest) = extract_rates cs rest :=
  ⟨extractAux_values cs data [] (fun p hp => absurd hp (List.not_mem_nil p)),
   rfl, extract_rates_replicate_none cs n, fun _ => rfl⟩

/-- Witness for C3 at the scenario of specification section 8: the currency
kept for the sample record is in the requested set. -/
theorem extract_rates_requested_only_witness :
    ("USD", "39.5").1 ∈ ["USD", "EUR"] :=
  (extract_rates_requested_only ["USD", "EUR"] [some sampleRecord] 0).1
    ("01.06.2024", [("USD", "39.5"), ("EUR", "42.1")]) (by decide)
    ("USD", "39.5") (by decide)

/-- C6 counterexample: on a response body that is invalid JSON,
`fetch_exchange_rate` does not return an absent value with a diagnostic; the
`json.JSONDecodeError` (a `ValueError`, not an `aiohttp.ClientError`) escapes
the `except aiohttp.ClientError` clause and propagates to the caller. -/
theorem fetch_exchange_rate_invalid_json_raises :
    netBadJson 0 = HttpOutcome.invalidJson ∧
    fetch_exchange_rate netBadJson 0 = (Except.error PyExc.valueError, []) :=
  ⟨rfl, rfl⟩

/-- C6 (amended): `fetch_exchange_rate` returns the parsed record on success;
on a transport error, a non-2xx status, or a content-type-mismatched body it
returns an absent value and emits one diagnostic log line, without raising;
but a body that is invalid JSON raises `json.JSONDecodeError` (a `ValueError`
the clause `except aiohttp.ClientError` does not catch), which propagates. -/
theorem fetch_exchange_rate_failure_modes (net : Int → HttpOutcome) (date : Int) :
    (∀ r, net date = HttpOutcome.ok r →
      fetch_exchange_rate net date = (Except.ok (some r), [])) ∧
    (fetchFails (net date) →
      fetch_exchange_rate net date = (Except.ok none, [requestFailedDiag])) ∧
    (net date = HttpOutcome.invalidJson →
      (fetch_exchange_rate net date).1 = Except.error PyExc.valueError) := by
  refine ⟨?_, ?_, ?_⟩
  · intro r hr
    simp [fetch_exchange_rate, hr]
  · rintro (h | h | h) <;> simp [fetch_exchange_rate, h]
  · intro h
    simp [fetch_exchange_rate, h]

/-- Witness for C6 (amended): day 99 of `netMixed` fails transport and the
fetch settles to an absent value with one diagnostic. -/
theorem fetch_exchange_rate_failure_modes_witness :
    fetch_exchange_rate netMixed 99 = (Except.ok none, [requestFailedDiag]) :=
  (fetch_exchange_rate_failure_modes netMixed 99).2.1 (Or.inl (by decide))

/-- C2: when every fetch of a batch settles (yields a present or absent
record rather than raising), with some failing and some succeeding, the
pipeline returns normally, and the aggregated mapping has exactly the date
keys of the succeeding records. -/
theorem fetch_pipeline_partial_failure (net : Int → HttpOutcome) (now days : Int)
    (cs : List String)
    (hsettle : ∀ d ∈ requestDates now days, net d ≠ HttpOutcome.invalidJson)
    (_hfail : ∃ d ∈ requestDates now days, fetchFails (net d))
    (_hsucc : ∃ d ∈ requestDates now days, ∃ r, net d = HttpOutcome.ok r) :
    (fetch_last_days net now days).result = Except.ok (settledData net now days) ∧
    ∀ k, (∃ m, (k, m) ∈ extract_rates cs (settledData net now days)) ↔
      ∃ r : RawRecord, some r ∈ settledData net now days ∧ r.date = k :=
  ⟨fetch_last_days_result_settled net now days hsettle,
   fun k => extract_rates_keys cs _ k⟩

/-- Witness for C2: three requested days against `netMixed` (one transport
failure, two successes) return normally with the settled result list. -/
theorem fetch_pipeline_partial_failure_witness :
    (fetch_last_days netMixed 100 3).result = Except.ok (settledData netMixed 100 3) :=
  (fetch_pipeline_partial_failure netMixed 100 3 ["USD", "EUR"] (by decide)
    ⟨99, by decide, Or.inl (by decide)⟩ ⟨100, by decide, sampleRecord, by decide⟩).1

/-- Helper: the returned result of `fetch_last_days`, unfolded. -/
theorem fetch_last_days_result_def (net : Int → HttpOutcome) (now days : Int) :
    (fetch_last_days net now days).result =
      gatherResults (((requestDates now days).map
        (fun d => fetch_exchange_rate net d)).map Prod.fst) := rfl

/-- C4: for days in [1, 10], `fetch_last_days` dispatches exactly `days`
fetches, one per date counting backward from now; when it returns a result
list, that list has one slot per fetch (all of them settled), and the
aggregation has at most `days` entries. -/
theorem fetch_last_days_dispatch_count (net : Int → HttpOutcome) (now days : Int)
    (cs : List String) (h1 : 1 ≤ days) (h10 : days ≤ 10) :
    (fetch_last_days net now days).dates =
      (List.range days.toNat).map (fun i => now - Int.ofNat i) ∧
    ((fetch_last_days net now days).dates.length : Int) = days ∧
    ∀ data, (fetch_last_days net now days).result = Except.ok data →
      data.length = days.toNat ∧ ((extract_rates cs data).length : Int) ≤ days := by
  refine ⟨rfl, ?_, ?_⟩
  · rw [fetch_last_days_dates, requestDates_length]
    exact Int.toNat_of_nonneg (by omega)
  · intro data hdata
    rw [fetch_last_days_result_def] at hdata
    have hlen := gatherResults_ok_length _ data hdata
    rw [List.length_map, List.length_map, requestDates_length] at hlen
    have hext : (extract_rates cs data).length ≤ data.length := by
      have h := length_extractAux_le cs data []
      simpa [extract_rates] using h
    have hcast : ((days.toNat : Int)) = days := Int.toNat_of_nonneg (by omega)
    exact ⟨hlen, by omega⟩

/-- Witness for C4 at `netMixed`, three days: the settled data has three
slots and the aggregation at most three entries. -/
theorem fetch_last_days_dispatch_count_witness :
    (settledData netMixed 100 3).length = (3 : Int).toNat ∧
    ((extract_rates ["USD", "EUR"] (settledData netMixed 100 3)).length : Int) ≤ 3 :=
  (fetch_last_days_dispatch_count netMixed 100 3 ["USD", "EUR"] (by decide)
    (by decide)).2.2 (settledData netMixed 100 3) rfl

/-- C1: a client command `exchange N` whose parsed day count exceeds 10 sends
exactly the error text, invokes no fetch, dispatches no network operation,
emits no diagnostic, appends no audit entry, and raises nothing. -/
theorem exchange_command_over_ten (env : Env) (p : String) (rest : List String)
    (n : Int) (hp : pyInt p = some n) (hn : 10 < n) :
    exchange_command env (p :: rest) =
      ({ emptyEff with sent := ["Error: Maximum number of days is 10"] }, none) := by
  simp only [exchange_command, hp]
  unfold runExchange
  rw [if_pos hn]

/-- Witness for C1: the command `exchange 11` against a healthy network. -/
theorem exchange_command_over_ten_witness :
    exchange_command envOk ["11"] =
      ({ emptyEff with sent := ["Error: Maximum number of days is 10"] }, none) :=
  exchange_command_over_ten envOk "11" [] 11 (by decide) (by decide)

/-- C5 counterexample: the parsed day count 0 lies outside [1, 10], yet the
command `exchange 0` is not rejected: `fetch_last_days` is invoked with
argument 0 (and no error text is sent). -/
theorem exchange_command_zero_reaches_fetch :
    pyInt "0" = some 0 ∧ ¬(1 ≤ (0 : Int)) ∧
    (exchange_command envOk ["0"]).1.fetchCalls = [0] ∧
    (exchange_command envOk ["0"]).1.sent ≠ ["Error: Maximum number of days is 10"] := by
  decide

/-- C5 (amended): only parsed day counts above 10 are rejected before
`fetch_last_days` is invoked; any parsed count at most 10 — including 0 and
negatives — is passed to `fetch_last_days`, though for counts below 1 the
date range is empty, so no per-date fetch is attempted. -/
theorem exchange_command_day_bound_checks (env : Env) (p : String)
    (rest : List String) (n : Int) (hp : pyInt p = some n) :
    (10 < n → (exchange_command env (p :: rest)).1.fetchCalls = [] ∧
      (exchange_command env (p :: rest)).1.netDates = []) ∧
    (n ≤ 10 → (exchange_command env (p :: rest)).1.fetchCalls = [n]) ∧
    (n ≤ 0 → (exchange_command env (p :: rest)).1.netDates = []) := by
  have hcmd : exchange_command env (p :: rest) = runExchange env (p :: rest) n := by
    simp only [exchange_command, hp]
  have hdates : n ≤ 0 → requestDates env.now n = [] := by
    intro hn
    unfold requestDates pyRange
    rw [Int.toNat_of_nonpos hn]
    rfl
  refine ⟨?_, ?_, ?_⟩
  · intro hn
    rw [hcmd]
    unfold runExchange
    rw [if_pos hn]
    exact ⟨rfl, rfl⟩
  · intro hn
    rw [hcmd]
    unfold runExchange
    rw [if_neg (by omega : ¬ 10 < n)]
    cases hres : (fetch_last_days env.net env.now n).result with
    | error e => simp [hres]
    | ok data => simp [hres]
  · intro hn
    rw [hcmd]
    unfold runExchange
    rw [if_neg (by omega : ¬ 10 < n)]
    cases hres : (fetch_last_days env.net env.now n).result with
    | error e => simpa [hres] using hdates hn
    | ok data => simpa [hres] using hdates hn

/-- Witness for C5 (amended): `exchange 0` invokes the fetch layer but
attempts no per-date fetch. -/
theorem exchange_command_day_bound_checks_witness :
    (exchange_command envOk ["0"]).1.netDates = [] :=
  (exchange_command_day_bound_checks envOk "0" [] 0 (by decide)).2.2 (by decide)

/-- Helper for C7: `runExchange` with the same day count but different raw
parameter lists differs only in the params recorded in the audit entries. -/
theorem runExchange_params_only_audit (env : Env) (ps ps' : List String) (n : Int) :
    (runExchange env ps n).1.sent = (runExchange env ps' n).1.sent ∧
    (runExchange env ps n).1.fetchCalls = (runExchange env ps' n).1.fetchCalls ∧
    (runExchange env ps n).1.netDates = (runExchange env ps' n).1.netDates ∧
    (runExchange env ps n).1.diags = (runExchange env ps' n).1.diags ∧
    (runExchange env ps n).2 = (runExchange env ps' n).2 ∧
    (runExchange env ps n).1.audit =
      (runExchange env ps' n).1.audit.map (fun a => { a with params := ps }) := by
  unfold runExchange
  by_cases hn : 10 < n
  · simp [if_pos hn, emptyEff]
  · simp only [if_neg hn]
    cases hres : (fetch_last_days env.net env.now n).result with
    | error e => simp [hres, emptyEff]
    | ok data => simp [hres]

/-- C7 (amended): `exchange` with no parameter and `exchange 1` both run the
command with a day count of 1 and produce the same response, fetch calls,
network operations, diagnostics and exception behaviour; each appends one
audit entry on success, but the recorded raw params differ (the empty list
versus the list containing the token 1). -/
theorem exchange_default_one_behaviour (env : Env) :
    (exchange_command env []).1.sent = (exchange_command env ["1"]).1.sent ∧
    (exchange_command env []).1.fetchCalls =
      (exchange_command env ["1"]).1.fetchCalls ∧
    (exchange_command env []).1.netDates = (exchange_command env ["1"]).1.netDates ∧
    (exchange_command env []).1.diags = (exchange_command env ["1"]).1.diags ∧
    (exchange_command env []).2 = (exchange_command env ["1"]).2 ∧
    (exchange_command env []).1.audit =
      (exchange_command env ["1"]).1.audit.map
        (fun a => { a with params := ([] : List String) }) := by
  have hp : pyInt "1" = some 1 := by decide
  have h0 : exchange_command env [] = runExchange env [] 1 := rfl
  have h1 : exchange_command env ["1"] = runExchange env ["1"] 1 := by
    simp only [exchange_command, hp]
  rw [h0, h1]
  exact runExchange_params_only_audit env [] ["1"] 1

/-- C7 counterexample: against `envOk`, `exchange` and `exchange 1` send the
same response, but the audit log lines they append differ, because the line
interpolates the raw params ([] versus the one-token list). -/
theorem exchange_no_param_audit_differs :
    (exchange_command envOk []).1.sent = (exchange_command envOk ["1"]).1.sent ∧
    (exchange_command envOk []).1.audit =
      [⟨"exchange", [], envOk.timestamp⟩] ∧
    (exchange_command envOk ["1"]).1.audit =
      [⟨"exchange", ["1"], envOk.timestamp⟩] ∧
    (exchange_command envOk []).1.audit ≠ (exchange_command envOk ["1"]).1.audit := by
  decide

/-- C8: an accepted `exchange` command whose parsed day count is at most 10,
over a network where every fetch of the batch settles, sends the formatted
block as the single response message, invokes exactly one fetch with that day
count, and appends exactly one audit entry carrying the command name, the
raw params, and the timestamp. -/
theorem exchange_command_success_effects (env : Env) (params : List String)
    (n : Int) (hd : parsedDays params = some n) (h10 : n ≤ 10)
    (hsettle : ∀ d ∈ requestDates env.now n, env.net d ≠ HttpOutcome.invalidJson) :
    exchange_command env params =
      ({ sent := [String.intercalate "\n" (responseLines
            (extract_rates env.currencies (settledData env.net env.now n)))]
         fetchCalls := [n]
         netDates := requestDates env.now n
         diags := (fetch_last_days env.net env.now n).diags
         audit := [⟨"exchange", params, env.timestamp⟩] }, none) := by
  have hcmd : exchange_command env params = runExchange env params n := by
    cases params with
    | nil =>
      simp only [parsedDays, Option.some.injEq] at hd
      subst hd
      rfl
    | cons p rest =>
      simp only [parsedDays] at hd
      simp only [exchange_command, hd]
  rw [hcmd]
  unfold runExchange
  rw [if_neg (by omega : ¬ 10 < n)]
  have hres := fetch_last_days_result_settled env.net env.now n hsettle
  simp only [hres, fetch_last_days_dates]

/-- Witness for C8: `exchange 3` against `envMixed` (one failing date). -/
theorem exchange_command_success_effects_witness :
    exchange_command envMixed ["3"] =
      ({ sent := [String.intercalate "\n" (responseLines
            (extract_rates envMixed.currencies (settledData envMixed.net envMixed.now 3)))]
         fetchCalls := [3]
         netDates := requestDates envMixed.now 3
         diags := (fetch_last_days envMixed.net envMixed.now 3).diags
         audit := [⟨"exchange", ["3"], envMixed.timestamp⟩] }, none) :=
  exchange_command_success_effects envMixed ["3"] 3 (by decide) (by decide) (by decide)

/-- C9: the handler registers the client on connect and the `finally` block
removes it again on every termination path, whichever way the stream ends and
whatever the per-line handling did; and when the connection ends by normal
close or by a closure exception (`ConnectionClosed`, also if raised
mid-processing), no exception escapes the handler. -/
theorem handler_registry_cleanup (env : Env) (clients : Finset Nat) (ws : Nat)
    (msgs : List String) (fin : StreamEnd) :
    ws ∉ (handler env clients ws msgs fin).clients ∧
    ((handlerLoop env msgs).2 = none ∨
        (handlerLoop env msgs).2 = some PyExc.connectionClosed →
      (handler env clients ws msgs fin).exc = none) := by
  constructor
  · show ws ∉ (insert ws clients).erase ws
    exact Finset.not_mem_erase ws _
  · intro h
    show (match (handlerLoop env msgs).2 with
      | some PyExc.connectionClosed => none
      | some e => some e
      | none =>
        match fin with
        | .closed => none
        | .connError => none) = none
    rcases h with h | h
    · rw [h]
      cases fin <;> rfl
    · rw [h]

/-- Witness for C9: a client disconnecting by transport error after one
handled command is deregistered, and nothing escapes the handler. -/
theorem handler_registry_cleanup_witness :
    7 ∉ (handler envOk ∅ 7 ["exchange 1"] StreamEnd.connError).clients ∧
    (handler envOk ∅ 7 ["exchange 1"] StreamEnd.connError).exc = none :=
  ⟨(handler_registry_cleanup envOk ∅ 7 ["exchange 1"] StreamEnd.connError).1,
   (handler_registry_cleanup envOk ∅ 7 ["exchange 1"] StreamEnd.connError).2
     (Or.inl (by decide))⟩

/-- C10: per-connection line handling is not total: an empty line makes the
tuple unpacking raise `ValueError`, and `exchange abc` makes `int` raise
`ValueError`; the exception escapes the handler (which catches only
`ConnectionClosed`), nothing is sent in response, and later messages of that
connection are never processed. -/
theorem handler_line_not_total :
    pySplit "" = [] ∧ pySplit " " = [] ∧
    (handler envOk ∅ 7 [""] StreamEnd.closed).exc = some PyExc.valueError ∧
    (handler envOk ∅ 7 [""] StreamEnd.closed).eff = emptyEff ∧
    pyInt "abc" = none ∧
    (handler envOk ∅ 7 ["exchange abc", "exchange 1"] StreamEnd.closed).exc =
      some PyExc.valueError ∧
    (handler envOk ∅ 7 ["exchange abc", "exchange 1"] StreamEnd.closed).eff.sent
      = [] := by
  decide

end PrivatBank
